import Mathlib

/-!
Verification of the SEO audit/scoring pipeline of the `designedforyou`
repository (`scripts/seo/seo-audit.js` plus the standalone content analyzer).

The JavaScript source is shallowly embedded: an HTML document is modelled by
the projection of the DOM queries the auditors actually perform, JS numbers
are modelled by `Nat`/`Int`/`Rat` (all quantities involved are small exact
decimals, where the IEEE double computations of the source agree with exact
rational arithmetic on every branch constant used), and `Math.round` is
modelled exactly (round half toward positive infinity).
-/

namespace SeoAudit

/-- JS `Math.round`: rounds half up (toward positive infinity), i.e.
`Math.round(x) = floor(x + 0.5)`. -/
def jsRound (q : ℚ) : ℤ := ⌊q + 1 / 2⌋

/-! ### String utilities mirroring the JS string operations

These are implemented by structural recursion over the character list of the
string, so that every definition evaluates inside the kernel. -/

/-- Splitting a character list at separator characters (the semantics of
`String.split`/JS `split` on a single-character class): the fragments between
separators, empty fragments included. -/
def splitListAux (p : Char → Bool) : List Char → List Char → List (List Char)
  | [], acc => [acc.reverse]
  | c :: t, acc => if p c then acc.reverse :: splitListAux p t [] else splitListAux p t (c :: acc)

/-- The fragments of `s` between characters satisfying `p`. -/
def splitStr (p : Char → Bool) (s : String) : List String :=
  (splitListAux p s.data []).map String.mk

/-- Removal of leading and trailing whitespace (JS `trim`). -/
def jsTrim (s : String) : String :=
  String.mk (((s.data.dropWhile Char.isWhitespace).reverse.dropWhile
    Char.isWhitespace).reverse)

/-- Mirrors `split(/\s+/)` followed by `.filter(Boolean)`: the maximal
whitespace-free fragments (splitting at single whitespace characters and
discarding empty fragments is the same as splitting at whitespace runs). -/
def wordsOf (s : String) : List String :=
  (splitStr Char.isWhitespace s).filter (fun w => !(w == ""))

/-- Sentence-terminating characters of the JS regex `[.!?]+`. -/
def isSentenceEnd (c : Char) : Bool := c == '.' || c == '!' || c == '?'

/-- Mirrors `split(/[.!?]+/).filter(s => s.trim().length > 0)`.  Splitting on
single terminator characters and filtering blank fragments yields the same
list as splitting on runs of terminators, because the fragment between two
consecutive terminators is empty. -/
def sentencesOf (s : String) : List String :=
  (splitStr isSentenceEnd s).filter (fun t => decide (0 < (jsTrim t).length))

/-- Helper for `strIncludes`: does the first list start with the second? -/
def hasPrefixList : List Char → List Char → Bool
  | _, [] => true
  | [], _ :: _ => false
  | a :: as, b :: bs => a == b && hasPrefixList as bs

/-- Helper for `strIncludes`: does some suffix of the second list start with
`pat`? -/
def hasSubList (pat : List Char) : List Char → Bool
  | [] => hasPrefixList [] pat
  | c :: t => hasPrefixList (c :: t) pat || hasSubList pat t

/-- JS `s.includes(pat)`: substring containment. -/
def strIncludes (s pat : String) : Bool := hasSubList pat.data s.data

/-- JS `s.startsWith(pat)` / the CSS attribute selector `[href^="pat"]`. -/
def strStarts (s pat : String) : Bool := hasPrefixList s.data pat.data

/-- JS `s.endsWith(pat)`. -/
def strEnds (s pat : String) : Bool := hasPrefixList s.data.reverse pat.data.reverse

/-- JS `s || 'missing'` for an optional attribute value: `undefined` and the
empty string are falsy. -/
def jsOrMissing : Option String → String
  | none => "missing"
  | some s => if s == "" then "missing" else s

/-- JS template rendering of a possibly-`undefined` attribute value. -/
def jsShowOpt : Option String → String
  | none => "undefined"
  | some s => s

/-- Node `path.basename`: the part of the path after the last `/`. -/
def jsBasename (p : String) : String :=
  ((splitStr (fun c => c == '/') p).getLast?).getD p

/-! ### Data model (seo-audit.js lines 28-45 and 50-56) -/

/-- Projection of a parsed HTML document onto the DOM queries performed by
`auditMetadata` and `auditContent` in `seo-audit.js`:
* `title` is `$('title').text()`;
* `metaDescription` is `$('meta[name="description"]').attr('content')`
  (`none` models `undefined`);
* `viewport` is `$('meta[name="viewport"]').attr('content')`;
* `charsetAttr` is the `charset` attribute of the first `meta[charset]`
  element (`none` exactly when `$('meta[charset]').length == 0`, since the
  selector requires the attribute);
* `h1Count`..`h4Count` are `$('h1').length` .. `$('h4').length`, and
  `h1FirstText` is `$('h1').first().text()`;
* `canonicalCount` is `$('link[rel="canonical"]').length` and
  `canonicalHref` its first element's `href` attribute;
* `bodyText` is `$('body').text()`;
* `imgAlts` lists, per `img` element in document order, its `alt` attribute
  (`none` when the attribute is absent), so `$('img').length` is
  `imgAlts.length` and `$('img[alt]').length` counts the `some` entries;
* `semanticTagCount` is `$('header, footer, main, article, section, nav,
  aside').length`;
* `anchorHrefs` lists the `href` attributes of the `a[href]` elements. -/
structure HtmlDoc where
  title : String
  metaDescription : Option String
  viewport : Option String
  charsetAttr : Option String
  h1Count : Nat
  h1FirstText : String
  h2Count : Nat
  h3Count : Nat
  h4Count : Nat
  canonicalCount : Nat
  canonicalHref : Option String
  bodyText : String
  imgAlts : List (Option String)
  semanticTagCount : Nat
  anchorHrefs : List String
deriving Repr, DecidableEq

/-- Scoring weights of the metadata rubric (`WEIGHTS.metadata`). -/
structure MetadataWeights where
  title : ℤ
  metaDescription : ℤ
  viewport : ℤ
  charset : ℤ
  headingStructure : ℤ
  canonicalLink : ℤ
deriving Repr

/-- Scoring weights of the content rubric (`WEIGHTS.content`). -/
structure ContentWeights where
  wordCount : ℤ
  readability : ℤ
  headingStructure : ℤ
  imageAlt : ℤ
  semanticTags : ℤ
  internalLinks : ℤ
deriving Repr

/-- The `WEIGHTS.metadata` table (source lines 29-36). -/
def metadataWeights : MetadataWeights :=
  { title := 15, metaDescription := 20, viewport := 10, charset := 10,
    headingStructure := 15, canonicalLink := 10 }

/-- The `WEIGHTS.content` table (source lines 37-44). -/
def contentWeights : ContentWeights :=
  { wordCount := 15, readability := 25, headingStructure := 20,
    imageAlt := 20, semanticTags := 10, internalLinks := 10 }

/-- One rubric check result (`results.checks` entry); `passed` models the
`status: 'passed' | 'failed'` string. -/
structure AuditCheck where
  name : String
  passed : Bool
  value : String
deriving Repr, DecidableEq

/-- The per-file audit outcome produced by `auditMetadata` / `auditContent`
(`file` is `path.basename(filePath)`). -/
structure FileAuditResult where
  file : String
  score : ℤ
  maxScore : ℤ
  checks : List AuditCheck
  issues : List String
  normalizedScore : ℤ
deriving Repr, DecidableEq

/-! ### Metadata auditor (seo-audit.js lines 47-146) -/

/-- Title predicate: `title && title.length >= 10 && title.length <= 60`
(the empty string is falsy). -/
def hasOptimalTitle (d : HtmlDoc) : Bool :=
  !(d.title == "") && decide (10 ≤ d.title.length) && decide (d.title.length ≤ 60)

/-- Meta-description predicate: `metaDescription && length in [10, 160]`. -/
def hasOptimalDesc (d : HtmlDoc) : Bool :=
  match d.metaDescription with
  | none => false
  | some m => !(m == "") && decide (10 ≤ m.length) && decide (m.length ≤ 160)

/-- Viewport predicate: `viewport && viewport.includes('width=device-width')`. -/
def hasViewport (d : HtmlDoc) : Bool :=
  match d.viewport with
  | none => false
  | some v => !(v == "") && strIncludes v "width=device-width"

/-- Charset predicate: `$('meta[charset]').length > 0`. -/
def hasCharset (d : HtmlDoc) : Bool := d.charsetAttr.isSome

/-- Heading predicate: `$('h1').length === 1`. -/
def hasOneH1 (d : HtmlDoc) : Bool := d.h1Count == 1

/-- Canonical predicate: `$('link[rel="canonical"]').length > 0`. -/
def hasCanonical (d : HtmlDoc) : Bool := decide (0 < d.canonicalCount)

/-- The metadata auditor (source lines 47-146): six weighted checks, then
`normalizedScore = Math.round(score / maxScore * 100)`. -/
def auditMetadata (filePath : String) (d : HtmlDoc) : FileAuditResult :=
  let titleScore : ℤ := if hasOptimalTitle d then metadataWeights.title else 0
  let descScore : ℤ := if hasOptimalDesc d then metadataWeights.metaDescription else 0
  let viewportScore : ℤ := if hasViewport d then metadataWeights.viewport else 0
  let charsetScore : ℤ := if hasCharset d then metadataWeights.charset else 0
  let headingScore : ℤ := if hasOneH1 d then metadataWeights.headingStructure else 0
  let canonicalScore : ℤ := if hasCanonical d then metadataWeights.canonicalLink else 0
  let score := titleScore + descScore + viewportScore + charsetScore +
    headingScore + canonicalScore
  let maxScore := metadataWeights.title + metadataWeights.metaDescription +
    metadataWeights.viewport + metadataWeights.charset +
    metadataWeights.headingStructure + metadataWeights.canonicalLink
  { file := jsBasename filePath
    score := score
    maxScore := maxScore
    checks :=
      [ if hasOptimalTitle d then
          { name := "Title", passed := true, value := d.title }
        else
          { name := "Title", passed := false, value := jsOrMissing (some d.title) },
        if hasOptimalDesc d then
          { name := "Meta Description", passed := true, value := jsShowOpt d.metaDescription }
        else
          { name := "Meta Description", passed := false, value := jsOrMissing d.metaDescription },
        if hasViewport d then
          { name := "Viewport", passed := true, value := jsShowOpt d.viewport }
        else
          { name := "Viewport", passed := false, value := jsOrMissing d.viewport },
        if hasCharset d then
          { name := "Charset", passed := true, value := jsShowOpt d.charsetAttr }
        else
          { name := "Charset", passed := false, value := "missing" },
        if hasOneH1 d then
          { name := "H1 Tag", passed := true, value := d.h1FirstText }
        else
          { name := "H1 Tag", passed := false, value := toString d.h1Count ++ " H1 tags" },
        if hasCanonical d then
          { name := "Canonical Link", passed := true, value := jsShowOpt d.canonicalHref }
        else
          { name := "Canonical Link", passed := false, value := "missing" } ]
    issues :=
      (if hasOptimalTitle d then [] else
        ["Title tag is missing or not optimal (should be between 10-60 chars)"]) ++
      (if hasOptimalDesc d then [] else
        ["Meta description is missing or not optimal (should be between 10-160 chars)"]) ++
      (if hasViewport d then [] else
        ["Viewport meta tag is missing or doesn\x27t include width=device-width"]) ++
      (if hasCharset d then [] else ["Charset meta tag is missing"]) ++
      (if hasOneH1 d then [] else ["Page should have exactly one H1 tag"]) ++
      (if hasCanonical d then [] else ["Canonical link is missing"])
    normalizedScore := jsRound ((score : ℚ) / (maxScore : ℚ) * 100) }

/-! ### Content auditor (seo-audit.js lines 148-314)

The JS comparisons `score > WEIGHT * 0.7` are performed on IEEE doubles; for
every weight used here the double product `WEIGHT * 0.7` rounds to exactly
the rational value `WEIGHT * 7/10` (`20 * 0.7 == 14`, `25 * 0.7 == 17.5`,
`10 * 0.7 == 7` as doubles), so the rational model below agrees with the
source on every branch. -/

/-- `textContent.split(/\s+/).filter(Boolean).length` over the trimmed body
text (source lines 161-162). -/
def wordCountOf (d : HtmlDoc) : Nat := (wordsOf (jsTrim d.bodyText)).length

/-- The sentence count of the trimmed body text (source line 187). -/
def sentenceCountOf (d : HtmlDoc) : Nat := (sentencesOf (jsTrim d.bodyText)).length

/-- `avgWordsPerSentence` (source line 188): `0` when there are no sentences. -/
def avgWordsPerSentenceOf (d : HtmlDoc) : ℚ :=
  if 0 < sentenceCountOf d then (wordCountOf d : ℚ) / (sentenceCountOf d : ℚ) else 0

/-- Word-count award (source lines 165-170). -/
def wordCountScoreOf (d : HtmlDoc) : ℤ :=
  if 300 ≤ wordCountOf d ∧ wordCountOf d ≤ 1000 then contentWeights.wordCount
  else if 0 < wordCountOf d then jsRound ((contentWeights.wordCount : ℚ) * (1 / 2))
  else 0

/-- Readability award (source lines 191-198). -/
def readabilityScoreOf (d : HtmlDoc) : ℤ :=
  if 0 < avgWordsPerSentenceOf d ∧ avgWordsPerSentenceOf d ≤ 20 then
    contentWeights.readability
  else if 20 < avgWordsPerSentenceOf d ∧ avgWordsPerSentenceOf d ≤ 25 then
    jsRound ((contentWeights.readability : ℚ) * (3 / 4))
  else if 25 < avgWordsPerSentenceOf d then
    jsRound ((contentWeights.readability : ℚ) * (1 / 2))
  else 0

/-- Heading-structure award (source lines 220-225). -/
def headingScoreOf (d : HtmlDoc) : ℤ :=
  if d.h1Count = 1 ∧ 0 < d.h2Count + d.h3Count then contentWeights.headingStructure
  else if d.h1Count = 1 then jsRound ((contentWeights.headingStructure : ℚ) * (7 / 10))
  else 0

/-- `$('img[alt]').length`: images carrying an `alt` attribute, empty or not. -/
def imagesWithAltOf (d : HtmlDoc) : Nat := (d.imgAlts.filter Option.isSome).length

/-- `altTextPercentage` (source line 242), with the zero-image guard giving
`100`. -/
def altTextPercentageOf (d : HtmlDoc) : ℚ :=
  if 0 < d.imgAlts.length then
    (imagesWithAltOf d : ℚ) / (d.imgAlts.length : ℚ) * 100
  else 100

/-- Image-alt award (source lines 244-251). -/
def imageAltScoreOf (d : HtmlDoc) : ℤ :=
  if altTextPercentageOf d = 100 then contentWeights.imageAlt
  else if 80 ≤ altTextPercentageOf d then jsRound ((contentWeights.imageAlt : ℚ) * (8 / 10))
  else if 50 ≤ altTextPercentageOf d then jsRound ((contentWeights.imageAlt : ℚ) * (1 / 2))
  else 0

/-- The value string of the Image Alt Text check (source line 257). -/
def imageAltValueOf (d : HtmlDoc) : String :=
  toString (imagesWithAltOf d) ++ "/" ++ toString d.imgAlts.length ++
    " images (" ++ toString (jsRound (altTextPercentageOf d)) ++ "%)"

/-- Semantic-tag award (source lines 268-273). -/
def semanticScoreOf (d : HtmlDoc) : ℤ :=
  if 3 ≤ d.semanticTagCount then contentWeights.semanticTags
  else if 0 < d.semanticTagCount then
    jsRound ((contentWeights.semanticTags : ℚ) * ((d.semanticTagCount : ℚ) / 3))
  else 0

/-- The cheerio selector
`a[href^="/"]:not([href^="//"]), a[href^="."]:not([href^=".."]), a[href^="#"]`. -/
def isInternalHref (h : String) : Bool :=
  (strStarts h "/" && !(strStarts h "//")) ||
  (strStarts h "." && !(strStarts h "..")) ||
  strStarts h "#"

/-- `internalLinks` (source lines 288-290). -/
def internalLinksOf (d : HtmlDoc) : Nat := (d.anchorHrefs.filter isInternalHref).length

/-- Internal-link award (source lines 292-297). -/
def linkScoreOf (d : HtmlDoc) : ℤ :=
  if 3 ≤ internalLinksOf d then contentWeights.internalLinks
  else if 0 < internalLinksOf d then
    jsRound ((contentWeights.internalLinks : ℚ) * ((internalLinksOf d : ℚ) / 3))
  else 0

/-- The content auditor (source lines 148-314): six weighted checks over the
body, then `normalizedScore = Math.round(score / maxScore * 100)`. -/
def auditContent (filePath : String) (d : HtmlDoc) : FileAuditResult :=
  let score := wordCountScoreOf d + readabilityScoreOf d + headingScoreOf d +
    imageAltScoreOf d + semanticScoreOf d + linkScoreOf d
  let maxScore := contentWeights.wordCount + contentWeights.readability +
    contentWeights.headingStructure + contentWeights.imageAlt +
    contentWeights.semanticTags + contentWeights.internalLinks
  { file := jsBasename filePath
    score := score
    maxScore := maxScore
    checks :=
      [ { name := "Word Count", passed := decide (0 < wordCountScoreOf d),
          value := toString (wordCountOf d) },
        { name := "Readability",
          passed := decide ((contentWeights.readability : ℚ) * (7 / 10) <
            (readabilityScoreOf d : ℚ)),
          value := "Avg " ++ toString (jsRound (avgWordsPerSentenceOf d)) ++
            " words per sentence" },
        { name := "Heading Structure",
          passed := decide ((contentWeights.headingStructure : ℚ) * (7 / 10) <
            (headingScoreOf d : ℚ)),
          value := "H1: " ++ toString d.h1Count ++ ", H2: " ++ toString d.h2Count ++
            ", H3: " ++ toString d.h3Count ++ ", H4: " ++ toString d.h4Count },
        { name := "Image Alt Text",
          passed := decide ((contentWeights.imageAlt : ℚ) * (7 / 10) <
            (imageAltScoreOf d : ℚ)),
          value := imageAltValueOf d },
        { name := "Semantic Tags",
          passed := decide ((contentWeights.semanticTags : ℚ) * (7 / 10) <
            (semanticScoreOf d : ℚ)),
          value := toString d.semanticTagCount ++ " semantic elements" },
        { name := "Internal Links",
          passed := decide ((contentWeights.internalLinks : ℚ) * (7 / 10) <
            (linkScoreOf d : ℚ)),
          value := toString (internalLinksOf d) ++ " internal links" } ]
    issues :=
      (if wordCountOf d < 300 then ["Content is too short (< 300 words)"] else []) ++
      (if 20 < avgWordsPerSentenceOf d then
        ["Sentences are too long (average > 20 words)"] else []) ++
      (if d.h2Count + d.h3Count = 0 then ["Missing subheadings (H2, H3)"] else []) ++
      (if 0 < d.imgAlts.length ∧ altTextPercentageOf d < 100 then
        [toString (d.imgAlts.length - imagesWithAltOf d) ++ " images missing alt text"]
       else []) ++
      (if d.semanticTagCount < 3 then ["Insufficient semantic HTML elements"] else []) ++
      (if internalLinksOf d < 3 then
        ["Insufficient internal links (recommendation: at least 3)"] else [])
    normalizedScore := jsRound ((score : ℚ) / (maxScore : ℚ) * 100) }

/-! ### File scanner and per-file processing (seo-audit.js lines 600-659)

A directory tree is modelled as the listing `readdirSync` returns: named
files and named subdirectories.  `path.join(dir, name)` is modelled as
`dir ++ "/" ++ name` (their agreement on the segment shapes occurring here
is exact; no `.`/`..` segments are formed by the traversal). -/

/-- One directory entry (`fs.Dirent`): a plain file or a subdirectory with
its own listing. -/
inductive FsEntry where
  | file (name : String)
  | dir (name : String) (entries : List FsEntry)
deriving Repr

mutual

/-- Paths collected from a single entry by the `processFiles` traversal
(source lines 605-626): a file contributes its path when its name ends in
`.html`; a directory is recursed into unconditionally. -/
def collectHtmlEntry (dirPath : String) : FsEntry → List String
  | FsEntry.file n => if strEnds n ".html" then [dirPath ++ "/" ++ n] else []
  | FsEntry.dir n es => collectHtmlList (dirPath ++ "/" ++ n) es

/-- Paths collected from a directory listing, in listing order. -/
def collectHtmlList (dirPath : String) : List FsEntry → List String
  | [] => []
  | e :: es => collectHtmlEntry dirPath e ++ collectHtmlList dirPath es

end

/-- Witness relation: `p` is the path of an `.html` file somewhere inside the
entry, reachable by recursing through (arbitrary) subdirectories. -/
inductive IsHtmlIn : String → FsEntry → String → Prop
  | file (dirPath n : String) : strEnds n ".html" = true →
      IsHtmlIn dirPath (FsEntry.file n) (dirPath ++ "/" ++ n)
  | dir (dirPath n : String) (es : List FsEntry) (e : FsEntry) (p : String) :
      e ∈ es → IsHtmlIn (dirPath ++ "/" ++ n) e p →
      IsHtmlIn dirPath (FsEntry.dir n es) p

mutual

/-- The result accumulation of `processFiles` (source lines 605-626).  The
oracles `am`/`ac` model the fallible file read plus parse performed inside
`auditMetadata`/`auditContent` respectively (`none` models the exception).
Both audits are computed before either push, inside one `try` block: when
either one throws, the file contributes to neither array and the loop
continues with the next entry (the `catch` only logs). -/
def scanEntry (am ac : String → Option HtmlDoc) (dirPath : String) :
    FsEntry → List FileAuditResult × List FileAuditResult
  | FsEntry.file n =>
    if strEnds n ".html" then
      match am (dirPath ++ "/" ++ n) with
      | none => ([], [])
      | some d1 =>
        match ac (dirPath ++ "/" ++ n) with
        | none => ([], [])
        | some d2 =>
          ([auditMetadata (dirPath ++ "/" ++ n) d1],
           [auditContent (dirPath ++ "/" ++ n) d2])
    else ([], [])
  | FsEntry.dir n es => scanList am ac (dirPath ++ "/" ++ n) es

/-- `processFiles` over a directory listing: results of the entries in
order, appended. -/
def scanList (am ac : String → Option HtmlDoc) (dirPath : String) :
    List FsEntry → List FileAuditResult × List FileAuditResult
  | [] => ([], [])
  | e :: es =>
    ((scanEntry am ac dirPath e).1 ++ (scanList am ac dirPath es).1,
     (scanEntry am ac dirPath e).2 ++ (scanList am ac dirPath es).2)

end

/-- Entry into `processDirectory` (source lines 600-628): the initial
`readdirSync` on a missing root throws `ENOENT`, which nothing catches, so
the whole run aborts; with an existing root the traversal runs to
completion.  `none` models the missing root. -/
def processFilesRun (am ac : String → Option HtmlDoc) (rootPath : String) :
    Option (List FsEntry) → Except String (List FileAuditResult × List FileAuditResult)
  | none => Except.error "ENOENT: no such file or directory"
  | some es => Except.ok (scanList am ac rootPath es)

/-! ### Score aggregation and rating (seo-audit.js lines 316-335) -/

/-- `Math.round(results.reduce((sum, r) => sum + r.normalizedScore, 0) /
results.length)` (source lines 326-333).  On an empty array JS computes
`0 / 0 = NaN` and `Math.round(NaN) = NaN`; the `NaN` outcome is modelled by
`none`. -/
def totalNormalizedScore (rs : List FileAuditResult) : Option ℤ :=
  if rs.length = 0 then none
  else some (jsRound (((rs.map (fun r => r.normalizedScore)).sum : ℚ) / (rs.length : ℚ)))

/-- `overallScore = Math.round((totalMetadataScore + totalContentScore) / 2)`
(source line 335). -/
def overallScoreOf (a b : ℤ) : ℤ := jsRound (((a : ℚ) + (b : ℚ)) / 2)

/-- The rating thresholds (source lines 316-323). -/
def generateRatingLabel (score : ℤ) : String :=
  if 90 ≤ score then "Excellent"
  else if 80 ≤ score then "Very Good"
  else if 70 ≤ score then "Good"
  else if 60 ≤ score then "Fair"
  else if 50 ≤ score then "Poor"
  else "Very Poor"

/-- A `FileAuditResult` carrying only the field the aggregator reads. -/
def resultWithScore (n : ℤ) : FileAuditResult :=
  { file := "", score := 0, maxScore := 0, checks := [], issues := [],
    normalizedScore := n }

/-! ### Report file plumbing (seo-audit.js lines 337-345, 596-597, 634-652)

`generateHTMLReport` renders the fixed styled template, writes it to its own
timestamped path, and returns that path (line 597).  `processDirectory` then
computes a second timestamped path, writes the value *returned* by
`generateHTMLReport` there (line 645), and copies that file onto the stable
`seo-report/seo-report.html` (line 652).  The rendered document is the fixed
template opening `reportHtmlIntro` followed by a score-dependent remainder;
the remainder is abstracted by a parameter, which only strengthens the
theorems quantifying over it. -/

/-- `path.join('seo-report', ('seo-report-' + timestamp + '.html'))`. -/
def reportPathOf (ts : String) : String := "seo-report/seo-report-" ++ ts ++ ".html"

/-- `path.join('seo-report', 'seo-report.html')` (source line 648). -/
def latestReportPath : String := "seo-report/seo-report.html"

/-- The opening characters of the template literal assigned to `html`
(source lines 347-350). -/
def reportHtmlIntro : String := "\n<!DOCTYPE html>\n<html lang=\"en\">\n<head>\n"

/-- Effect of `generateHTMLReport`: the write it performs and its return
value, which is the *path* it wrote to, not the document (source line 597). -/
def generateHTMLReportEffect (tsG rest : String) : List (String × String) × String :=
  ([(reportPathOf tsG, reportHtmlIntro ++ rest)], reportPathOf tsG)

/-- Contents of a path after a sequence of writes: the last write wins. -/
def fsAfter (ws : List (String × String)) (q : String) : Option String :=
  (ws.reverse.find? (fun w => w.1 == q)).map (fun w => w.2)

/-- The ordered write trace of `processDirectory` (source lines 634-652):
the `generateHTMLReport` write, then `writeFileSync(reportPath, htmlReport)`
where `htmlReport` is `generateHTMLReport`'s returned path, then
`copyFileSync(reportPath, latestReportPath)`, modelled as writing the
current content of `reportPath`. -/
def processDirectoryWrites (tsG tsP rest : String) : List (String × String) :=
  let gen := generateHTMLReportEffect tsG rest
  let ws1 := gen.1 ++ [(reportPathOf tsP, gen.2)]
  ws1 ++ [(latestReportPath, (fsAfter ws1 (reportPathOf tsP)).getD "")]

/-! ### Standalone content analyzer (the SEO Content Analyzer script,
`calculateReadability`, lines 46-76) -/

/-- Characters up to and including the first `>`, for `stripTagsList`:
`none` when no `>` follows (then the regex `<[^>]*>` has no match here). -/
def dropTag : List Char → Option (List Char)
  | [] => none
  | c :: t => if c == '>' then some t else dropTag t

/-- Fuel-driven worker for `stripTagsList`; the fuel only serves structural
termination, and since every recursive call strictly shortens the character
list, fuel equal to the initial length is never exhausted. -/
def stripTagsFuel : Nat → List Char → List Char
  | 0, l => l
  | fuel + 1, l =>
    match l with
    | [] => []
    | c :: t =>
      if c == '<' then
        match dropTag t with
        | some t2 => stripTagsFuel fuel t2
        | none => c :: t
      else c :: stripTagsFuel fuel t

/-- `text.replace(/<[^>]*>/g, '')`: drop every `<`...`>` span; a `<` never
followed by `>` matches nothing and stays. -/
def stripTagsList (l : List Char) : List Char := stripTagsFuel l.length l

/-- String form of `stripTagsList`. -/
def stripTags (s : String) : String := String.mk (stripTagsList s.data)

/-- `text.split(/\s+/).filter(w => w.trim().length > 0)` (analyzer line 53). -/
def wordsCA (s : String) : List String :=
  (splitStr Char.isWhitespace s).filter (fun w => decide (0 < (jsTrim w).length))

/-- The vowel class `[aeiouy]` of the analyzer's syllable counter. -/
def isVowelChar (c : Char) : Bool :=
  c == 'a' || c == 'e' || c == 'i' || c == 'o' || c == 'u' || c == 'y'

/-- Number of maximal runs of vowel characters; the flag records whether the
previous character was a vowel. -/
def vowelGroupCount : Bool → List Char → Nat
  | _, [] => 0
  | inG, c :: t =>
    if isVowelChar c then (if inG then 0 else 1) + vowelGroupCount true t
    else vowelGroupCount false t

/-- Syllable count of one word (analyzer lines 61-68): the JS pipeline
`word.toLowerCase().replace(/[^aeiouy]+/g, ' ').trim().split(/\s+/).length`
evaluates to the number of maximal vowel runs when that is positive and to
`1` otherwise (splitting the empty string yields one empty fragment), and
the final `count > 0 ? count : 1` preserves that value. -/
def syllablesOfWord (w : String) : Nat :=
  let count := vowelGroupCount false (w.data.map Char.toLower)
  if 0 < count then count else 1

/-- `calculateReadability` (analyzer lines 46-76): strip tags, count
sentences, words and syllables, apply the simplified Flesch Reading Ease
formula, round, and clamp to `[0, 100]`; `0` when there are no sentences or
no words. -/
def calculateReadability (text : String) : ℤ :=
  let t := stripTags text
  let sents := sentencesOf t
  let ws := wordsCA t
  if sents.length = 0 ∨ ws.length = 0 then 0
  else
    let syllables := (ws.map syllablesOfWord).sum
    let score : ℚ := 206835 / 1000 - (1015 / 1000) * ((ws.length : ℚ) / (sents.length : ℚ)) -
      (846 / 10) * ((syllables : ℚ) / (ws.length : ℚ))
    min 100 (max 0 (jsRound score))

/-! ### Claim-side (specification-side) definitions for refinement
comparisons -/

/-- Modelled from the spec for comparison with `imagesWithAltOf`: the number
of images with a NON-empty `alt` attribute, as the specification words the
image alt-text check. -/
def specNonEmptyAltCount (d : HtmlDoc) : Nat :=
  (d.imgAlts.filter (fun a => match a with | some s => !(s == "") | none => false)).length

/-- Modelled from the spec: alt-text coverage computed from non-empty alt
attributes, with the zero-image guard. -/
def specAltTextPercentage (d : HtmlDoc) : ℚ :=
  if 0 < d.imgAlts.length then
    (specNonEmptyAltCount d : ℚ) / (d.imgAlts.length : ℚ) * 100
  else 100

/-- Modelled from the spec: the tiered image-alt award computed from the
non-empty-alt coverage percentage. -/
def specImageAltScore (d : HtmlDoc) : ℤ :=
  if specAltTextPercentage d = 100 then contentWeights.imageAlt
  else if 80 ≤ specAltTextPercentage d then jsRound ((contentWeights.imageAlt : ℚ) * (8 / 10))
  else if 50 ≤ specAltTextPercentage d then jsRound ((contentWeights.imageAlt : ℚ) * (1 / 2))
  else 0

/-! ### General lemmas about `jsRound` and score bounds -/

theorem jsRound_nonneg {q : ℚ} (h : 0 ≤ q) : 0 ≤ jsRound q := by
  refine Int.le_floor.mpr ?_
  push_cast
  linarith

theorem jsRound_le_of_le {q : ℚ} {n : ℤ} (h : q ≤ (n : ℚ)) : jsRound q ≤ n := by
  have : jsRound q < n + 1 := by
    refine Int.floor_lt.mpr ?_
    push_cast
    linarith
  omega

/-- Bounds of `Math.round(score / maxScore * 100)` for `0 ≤ score ≤ maxScore`. -/
theorem norm_score_bounds {s m : ℤ} (h0 : 0 ≤ s) (hsm : s ≤ m) (hm : 0 < m) :
    0 ≤ jsRound ((s : ℚ) / (m : ℚ) * 100) ∧ jsRound ((s : ℚ) / (m : ℚ) * 100) ≤ 100 := by
  have hmq : (0 : ℚ) < (m : ℚ) := by exact_mod_cast hm
  have h0q : (0 : ℚ) ≤ (s : ℚ) := by exact_mod_cast h0
  have hdiv : (s : ℚ) / (m : ℚ) ≤ 1 := by
    rw [div_le_one hmq]
    exact_mod_cast hsm
  constructor
  · exact jsRound_nonneg (by positivity)
  · refine jsRound_le_of_le ?_
    push_cast
    nlinarith

unseal Rat.mul Rat.add Rat.inv Rat.sub in
theorem jsRound_vals :
    jsRound (((15 : ℤ) : ℚ) * (1 / 2)) = 8 ∧ jsRound (((25 : ℤ) : ℚ) * (3 / 4)) = 19 ∧
    jsRound (((25 : ℤ) : ℚ) * (1 / 2)) = 13 ∧ jsRound (((20 : ℤ) : ℚ) * (7 / 10)) = 14 ∧
    jsRound (((20 : ℤ) : ℚ) * (8 / 10)) = 16 ∧ jsRound (((20 : ℤ) : ℚ) * (1 / 2)) = 10 := by
  decide

theorem wordCountScoreOf_bounds (d : HtmlDoc) :
    0 ≤ wordCountScoreOf d ∧ wordCountScoreOf d ≤ 15 := by
  unfold wordCountScoreOf
  split_ifs with h1 h2
  · simp [contentWeights]
  · rw [show contentWeights.wordCount = (15 : ℤ) from rfl, jsRound_vals.1]
    omega
  · omega

theorem readabilityScoreOf_bounds (d : HtmlDoc) :
    0 ≤ readabilityScoreOf d ∧ readabilityScoreOf d ≤ 25 := by
  unfold readabilityScoreOf
  split_ifs with h1 h2 h3
  · simp [contentWeights]
  · rw [show contentWeights.readability = (25 : ℤ) from rfl, jsRound_vals.2.1]
    omega
  · rw [show contentWeights.readability = (25 : ℤ) from rfl, jsRound_vals.2.2.1]
    omega
  · omega

theorem headingScoreOf_bounds (d : HtmlDoc) :
    0 ≤ headingScoreOf d ∧ headingScoreOf d ≤ 20 := by
  unfold headingScoreOf
  split_ifs with h1 h2
  · simp [contentWeights]
  · rw [show contentWeights.headingStructure = (20 : ℤ) from rfl, jsRound_vals.2.2.2.1]
    omega
  · omega

theorem imageAltScoreOf_bounds (d : HtmlDoc) :
    0 ≤ imageAltScoreOf d ∧ imageAltScoreOf d ≤ 20 := by
  unfold imageAltScoreOf
  split_ifs with h1 h2 h3
  · simp [contentWeights]
  · rw [show contentWeights.imageAlt = (20 : ℤ) from rfl, jsRound_vals.2.2.2.2.1]
    omega
  · rw [show contentWeights.imageAlt = (20 : ℤ) from rfl, jsRound_vals.2.2.2.2.2]
    omega
  · omega

/-- Bound for the proportional awards `Math.round(10 * (k / 3))` with
`k < 3`. -/
theorem jsRound_prop_bounds {k : Nat} (hk : k < 3) :
    0 ≤ jsRound (((10 : ℤ) : ℚ) * ((k : ℚ) / 3)) ∧
    jsRound (((10 : ℤ) : ℚ) * ((k : ℚ) / 3)) ≤ 10 := by
  have hkq : (k : ℚ) ≤ 3 := by exact_mod_cast Nat.le_of_lt_succ (Nat.lt_succ_of_lt hk)
  have h0 : (0 : ℚ) ≤ ((10 : ℤ) : ℚ) * ((k : ℚ) / 3) := by positivity
  constructor
  · exact jsRound_nonneg h0
  · refine jsRound_le_of_le ?_
    push_cast
    nlinarith

theorem semanticScoreOf_bounds (d : HtmlDoc) :
    0 ≤ semanticScoreOf d ∧ semanticScoreOf d ≤ 10 := by
  unfold semanticScoreOf
  split_ifs with h1 h2
  · simp [contentWeights]
  · rw [show contentWeights.semanticTags = (10 : ℤ) from rfl]
    exact jsRound_prop_bounds (by omega)
  · omega

theorem linkScoreOf_bounds (d : HtmlDoc) :
    0 ≤ linkScoreOf d ∧ linkScoreOf d ≤ 10 := by
  unfold linkScoreOf
  split_ifs with h1 h2
  · simp [contentWeights]
  · rw [show contentWeights.internalLinks = (10 : ℤ) from rfl]
    exact jsRound_prop_bounds (by omega)
  · omega

theorem auditMetadata_score_eq (fp : String) (d : HtmlDoc) :
    (auditMetadata fp d).score =
      (if hasOptimalTitle d then (15 : ℤ) else 0) +
      (if hasOptimalDesc d then (20 : ℤ) else 0) +
      (if hasViewport d then (10 : ℤ) else 0) +
      (if hasCharset d then (10 : ℤ) else 0) +
      (if hasOneH1 d then (15 : ℤ) else 0) +
      (if hasCanonical d then (10 : ℤ) else 0) := rfl

theorem auditMetadata_score_bounds (fp : String) (d : HtmlDoc) :
    0 ≤ (auditMetadata fp d).score ∧
    (auditMetadata fp d).score ≤ (auditMetadata fp d).maxScore ∧
    (auditMetadata fp d).maxScore = 80 := by
  have hm : (auditMetadata fp d).maxScore = 80 := rfl
  rw [auditMetadata_score_eq, hm]
  refine ⟨?_, ?_, rfl⟩ <;> split_ifs <;> norm_num

theorem auditContent_score_eq (fp : String) (d : HtmlDoc) :
    (auditContent fp d).score = wordCountScoreOf d + readabilityScoreOf d +
      headingScoreOf d + imageAltScoreOf d + semanticScoreOf d + linkScoreOf d := rfl

theorem auditContent_score_bounds (fp : String) (d : HtmlDoc) :
    0 ≤ (auditContent fp d).score ∧
    (auditContent fp d).score ≤ (auditContent fp d).maxScore ∧
    (auditContent fp d).maxScore = 100 := by
  have h1 := wordCountScoreOf_bounds d
  have h2 := readabilityScoreOf_bounds d
  have h3 := headingScoreOf_bounds d
  have h4 := imageAltScoreOf_bounds d
  have h5 := semanticScoreOf_bounds d
  have h6 := linkScoreOf_bounds d
  have hm : (auditContent fp d).maxScore = 100 := rfl
  rw [auditContent_score_eq, hm]
  exact ⟨by omega, by omega, rfl⟩

/-- C1: for every audited HTML document, both `auditMetadata` and
`auditContent` produce a `FileAuditResult` whose `normalizedScore` equals
`Math.round(score / maxScore * 100)` and lies in `[0, 100]`. -/
theorem claim1_normalizedScore_invariant (fp : String) (d : HtmlDoc) :
    ((auditMetadata fp d).normalizedScore =
      jsRound (((auditMetadata fp d).score : ℚ) / ((auditMetadata fp d).maxScore : ℚ) * 100) ∧
      0 ≤ (auditMetadata fp d).normalizedScore ∧
      (auditMetadata fp d).normalizedScore ≤ 100) ∧
    ((auditContent fp d).normalizedScore =
      jsRound (((auditContent fp d).score : ℚ) / ((auditContent fp d).maxScore : ℚ) * 100) ∧
      0 ≤ (auditContent fp d).normalizedScore ∧
      (auditContent fp d).normalizedScore ≤ 100) := by
  obtain ⟨hm0, hmle, hmmax⟩ := auditMetadata_score_bounds fp d
  obtain ⟨hc0, hcle, hcmax⟩ := auditContent_score_bounds fp d
  have hm := norm_score_bounds hm0 hmle (by omega)
  have hc := norm_score_bounds hc0 hcle (by omega)
  exact ⟨⟨rfl, hm.1, hm.2⟩, ⟨rfl, hc.1, hc.2⟩⟩

/-! ### C3, C5: aggregation -/

unseal Rat.mul Rat.add Rat.inv Rat.sub in
/-- C3: for non-empty result arrays the aggregator computes the rounded mean
of the `normalizedScore`s for each rubric, the overall score as the rounded
average of the two, and maps scores to rating labels by the fixed
thresholds; two files with normalized scores 80 and 40 average to 60. -/
theorem claim3_aggregation (ms cs : List FileAuditResult) (hm : ms ≠ []) (hc : cs ≠ []) :
    (totalNormalizedScore ms =
      some (jsRound (((ms.map (fun r => r.normalizedScore)).sum : ℚ) / (ms.length : ℚ))) ∧
     totalNormalizedScore cs =
      some (jsRound (((cs.map (fun r => r.normalizedScore)).sum : ℚ) / (cs.length : ℚ)))) ∧
    (∀ a b : ℤ, overallScoreOf a b = jsRound (((a : ℚ) + (b : ℚ)) / 2)) ∧
    ((∀ s : ℤ, 90 ≤ s → generateRatingLabel s = "Excellent") ∧
     (∀ s : ℤ, 80 ≤ s → s < 90 → generateRatingLabel s = "Very Good") ∧
     (∀ s : ℤ, 70 ≤ s → s < 80 → generateRatingLabel s = "Good") ∧
     (∀ s : ℤ, 60 ≤ s → s < 70 → generateRatingLabel s = "Fair") ∧
     (∀ s : ℤ, 50 ≤ s → s < 60 → generateRatingLabel s = "Poor") ∧
     (∀ s : ℤ, s < 50 → generateRatingLabel s = "Very Poor")) ∧
    totalNormalizedScore [resultWithScore 80, resultWithScore 40] = some 60 := by
  refine ⟨⟨?_, ?_⟩, ?_, ⟨?_, ?_, ?_, ?_, ?_, ?_⟩, ?_⟩
  · simp [totalNormalizedScore, List.length_eq_zero, hm]
  · simp [totalNormalizedScore, List.length_eq_zero, hc]
  · intro a b; rfl
  · intro s h; simp [generateRatingLabel]; omega
  · intro s h h2
    unfold generateRatingLabel
    rw [if_neg (by omega), if_pos (by omega)]
  · intro s h h2
    unfold generateRatingLabel
    rw [if_neg (by omega), if_neg (by omega), if_pos (by omega)]
  · intro s h h2
    unfold generateRatingLabel
    rw [if_neg (by omega), if_neg (by omega), if_neg (by omega), if_pos (by omega)]
  · intro s h h2
    unfold generateRatingLabel
    rw [if_neg (by omega), if_neg (by omega), if_neg (by omega), if_neg (by omega),
      if_pos (by omega)]
  · intro s h
    unfold generateRatingLabel
    rw [if_neg (by omega), if_neg (by omega), if_neg (by omega), if_neg (by omega),
      if_neg (by omega)]
  · decide

/-- C3 witness: instantiation at the two-file example with scores 80 and 40
and a singleton content array. -/
theorem claim3_aggregation_witness :
    totalNormalizedScore [resultWithScore 80, resultWithScore 40] = some 60 :=
  (claim3_aggregation [resultWithScore 80, resultWithScore 40] [resultWithScore 40]
    (by simp) (by simp)).2.2.2

/-- C5: on the empty result array the aggregator's
`Math.round(reduce(..) / length)` is the modelled NaN (`none`), not a
number, and no input ever produces the rating "Unknown" — the code neither
returns score 0 with rating "Unknown" nor raises a `NoFilesFoundError`. -/
theorem claim5_empty_aggregation_nan :
    totalNormalizedScore [] = none ∧
    (∀ s : ℤ, generateRatingLabel s ≠ "Unknown") := by
  refine ⟨rfl, ?_⟩
  intro s
  unfold generateRatingLabel
  split_ifs <;> simp

/-! ### C6: a fully optimal document scores the full metadata rubric -/

/-- C6: any document with exactly one `h1`, a 30-character title, a
100-character meta description, a viewport containing `width=device-width`,
a charset meta tag, and a canonical link scores 80 of 80 — the full
`maxScore` — with `normalizedScore` 100 and every check passed. -/
theorem claim6_full_metadata_score (fp : String) (d : HtmlDoc)
    (ht : d.title.length = 30)
    (hdesc : ∃ m, d.metaDescription = some m ∧ m.length = 100)
    (hvp : ∃ v, d.viewport = some v ∧ strIncludes v "width=device-width" = true)
    (hcs : d.charsetAttr.isSome = true)
    (hh1 : d.h1Count = 1)
    (hcan : 0 < d.canonicalCount) :
    (auditMetadata fp d).score = 80 ∧ (auditMetadata fp d).maxScore = 80 ∧
    (auditMetadata fp d).normalizedScore = 100 ∧
    (auditMetadata fp d).checks.all (fun c => c.passed) = true := by
  have htne : ¬(d.title = "") := by
    intro e
    rw [e] at ht
    exact absurd ht (by decide)
  have h1 : hasOptimalTitle d = true := by
    simp [hasOptimalTitle, ht, htne]
  have h2 : hasOptimalDesc d = true := by
    obtain ⟨m, hm, hml⟩ := hdesc
    have hmne : ¬(m = "") := by
      intro e
      rw [e] at hml
      exact absurd hml (by decide)
    simp [hasOptimalDesc, hm, hml, hmne]
  have h3 : hasViewport d = true := by
    obtain ⟨v, hv, hvi⟩ := hvp
    have hvne : ¬(v = "") := by
      intro e
      rw [e] at hvi
      exact absurd hvi (by decide)
    simp [hasViewport, hv, hvi, hvne]
  have h4 : hasCharset d = true := hcs
  have h5 : hasOneH1 d = true := by simp [hasOneH1, hh1]
  have h6 : hasCanonical d = true := by simp [hasCanonical]; omega
  have hsc : (auditMetadata fp d).score = 80 := by
    rw [auditMetadata_score_eq, h1, h2, h3, h4, h5, h6]
    norm_num
  have hmax : (auditMetadata fp d).maxScore = 80 := rfl
  have hnorm : (auditMetadata fp d).normalizedScore =
      jsRound (((auditMetadata fp d).score : ℚ) / ((auditMetadata fp d).maxScore : ℚ) * 100) :=
    rfl
  refine ⟨hsc, hmax, ?_, ?_⟩
  · rw [hnorm, hsc, hmax]
    have : (((80 : ℤ) : ℚ)) / (((80 : ℤ) : ℚ)) * 100 = 100 := by norm_num
    rw [this]
    unfold jsRound
    norm_num
  · show ((auditMetadata fp d).checks.all fun c => c.passed) = true
    simp only [auditMetadata, h1, h2, h3, h4, h5, h6, if_true]
    rfl

/-- Document witnessing C6: all six metadata checks are optimal. -/
def fullMetaDoc : HtmlDoc :=
  { title := "Premium Web Design For You Now",
    metaDescription := some (String.mk (List.replicate 100 'a')),
    viewport := some "width=device-width, initial-scale=1",
    charsetAttr := some "UTF-8",
    h1Count := 1, h1FirstText := "Welcome", h2Count := 0, h3Count := 0, h4Count := 0,
    canonicalCount := 1, canonicalHref := some "https://designedforyou.dev/",
    bodyText := "", imgAlts := [], semanticTagCount := 0, anchorHrefs := [] }

/-- C6 witness: the concrete optimal document scores 80 of 80 with
normalized score 100. -/
theorem claim6_full_metadata_score_witness :
    (auditMetadata "index.html" fullMetaDoc).score = 80 ∧
    (auditMetadata "index.html" fullMetaDoc).maxScore = 80 ∧
    (auditMetadata "index.html" fullMetaDoc).normalizedScore = 100 ∧
    (auditMetadata "index.html" fullMetaDoc).checks.all (fun c => c.passed) = true :=
  claim6_full_metadata_score "index.html" fullMetaDoc (by decide)
    ⟨String.mk (List.replicate 100 'a'), rfl, by decide⟩
    ⟨"width=device-width, initial-scale=1", rfl, by decide⟩
    (by decide) rfl (by decide)

/-! ### C2, C7, C10: the directory traversal -/

mutual

theorem mem_collectHtmlEntry (dirPath p : String) (e : FsEntry) :
    p ∈ collectHtmlEntry dirPath e ↔ IsHtmlIn dirPath e p := by
  cases e with
  | file n =>
    constructor
    · intro h
      unfold collectHtmlEntry at h
      by_cases he : strEnds n ".html" = true
      · rw [if_pos he, List.mem_singleton] at h
        subst h
        exact IsHtmlIn.file dirPath n he
      · rw [if_neg he] at h
        exact absurd h (List.not_mem_nil p)
    · intro h
      cases h with
      | file _ _ he =>
        unfold collectHtmlEntry
        rw [if_pos he]
        exact List.mem_singleton.mpr rfl
  | dir n es =>
    constructor
    · intro h
      unfold collectHtmlEntry at h
      obtain ⟨e2, he2, hin⟩ := (mem_collectHtmlList (dirPath ++ "/" ++ n) p es).mp h
      exact IsHtmlIn.dir dirPath n es e2 p he2 hin
    · intro h
      cases h with
      | dir _ _ _ e2 _ he2 hin =>
        unfold collectHtmlEntry
        exact (mem_collectHtmlList (dirPath ++ "/" ++ n) p es).mpr ⟨e2, he2, hin⟩

theorem mem_collectHtmlList (dirPath p : String) (es : List FsEntry) :
    p ∈ collectHtmlList dirPath es ↔ ∃ e ∈ es, IsHtmlIn dirPath e p := by
  cases es with
  | nil =>
    simp [collectHtmlList]
  | cons e es =>
    unfold collectHtmlList
    rw [List.mem_append]
    constructor
    · intro h
      rcases h with h | h
      · exact ⟨e, List.mem_cons_self e es, (mem_collectHtmlEntry dirPath p e).mp h⟩
      · obtain ⟨e2, he2, hin⟩ := (mem_collectHtmlList dirPath p es).mp h
        exact ⟨e2, List.mem_cons_of_mem e he2, hin⟩
    · rintro ⟨e2, he2, hin⟩
      rcases List.mem_cons.mp he2 with rfl | he2
      · exact Or.inl ((mem_collectHtmlEntry dirPath p e2).mpr hin)
      · exact Or.inr ((mem_collectHtmlList dirPath p es).mpr ⟨e2, he2, hin⟩)

end

/-- The example tree: `a/index.html`, `a/b/page.html`, `node_modules/skip.html`. -/
def scanExampleTree : List FsEntry :=
  [FsEntry.dir "a" [FsEntry.file "index.html", FsEntry.dir "b" [FsEntry.file "page.html"]],
   FsEntry.dir "node_modules" [FsEntry.file "skip.html"]]

/-- C2 counterexample: on the example tree the traversal returns all three
`.html` paths — including `node_modules/skip.html`, which the claim says is
never returned (the code recurses into every directory, with no skipping of
hidden directories or `node_modules`). -/
theorem claim2_counterexample :
    collectHtmlList "site" scanExampleTree =
      ["site/a/index.html", "site/a/b/page.html", "site/node_modules/skip.html"] ∧
    "site/node_modules/skip.html" ∈ collectHtmlList "site" scanExampleTree := by
  constructor
  · decide
  · decide

/-- C2 amended: the scanner collects exactly the files with an `.html`
extension reachable by recursing into subdirectories, recursing into every
subdirectory — including hidden directories and `node_modules`; for the
example root it returns all three paths. -/
theorem claim2_amended :
    (∀ (dirPath p : String) (es : List FsEntry),
      p ∈ collectHtmlList dirPath es ↔ ∃ e ∈ es, IsHtmlIn dirPath e p) ∧
    collectHtmlList "site" scanExampleTree =
      ["site/a/index.html", "site/a/b/page.html", "site/node_modules/skip.html"] := by
  refine ⟨?_, by decide⟩
  intro dirPath p es
  exact mem_collectHtmlList dirPath p es

mutual

theorem scanEntry_eq (am ac : String → Option HtmlDoc) (dirPath : String) (e : FsEntry) :
    (scanEntry am ac dirPath e).1 = (collectHtmlEntry dirPath e).filterMap
      (fun p => match am p, ac p with
        | some d1, some _ => some (auditMetadata p d1)
        | _, _ => none) ∧
    (scanEntry am ac dirPath e).2 = (collectHtmlEntry dirPath e).filterMap
      (fun p => match am p, ac p with
        | some _, some d2 => some (auditContent p d2)
        | _, _ => none) := by
  cases e with
  | file n =>
    unfold scanEntry collectHtmlEntry
    by_cases he : strEnds n ".html" = true
    · rw [if_pos he, if_pos he]
      cases ham : am (dirPath ++ "/" ++ n) with
      | none => simp [List.filterMap, ham]
      | some d1 =>
        cases hac : ac (dirPath ++ "/" ++ n) with
        | none => simp [List.filterMap, ham, hac]
        | some d2 => simp [List.filterMap, ham, hac]
    · rw [if_neg he, if_neg he]
      exact ⟨rfl, rfl⟩
  | dir n es =>
    unfold scanEntry collectHtmlEntry
    exact scanList_eq am ac (dirPath ++ "/" ++ n) es

theorem scanList_eq (am ac : String → Option HtmlDoc) (dirPath : String) (es : List FsEntry) :
    (scanList am ac dirPath es).1 = (collectHtmlList dirPath es).filterMap
      (fun p => match am p, ac p with
        | some d1, some _ => some (auditMetadata p d1)
        | _, _ => none) ∧
    (scanList am ac dirPath es).2 = (collectHtmlList dirPath es).filterMap
      (fun p => match am p, ac p with
        | some _, some d2 => some (auditContent p d2)
        | _, _ => none) := by
  cases es with
  | nil => exact ⟨rfl, rfl⟩
  | cons e es =>
    unfold scanList collectHtmlList
    rw [List.filterMap_append, List.filterMap_append]
    obtain ⟨h1, h2⟩ := scanEntry_eq am ac dirPath e
    obtain ⟨h3, h4⟩ := scanList_eq am ac dirPath es
    rw [h1, h2, h3, h4]
    exact ⟨rfl, rfl⟩

end

/-- C7: a file on which either audit throws (`none` oracle result — the read
or parse failed) is skipped while the traversal continues: the result arrays
are exactly the audits of the files whose reads succeed, in traversal order;
and only a missing root directory aborts the run (`readdirSync` throws
`ENOENT`, uncaught), while an existing root always yields a completed
result. -/
theorem claim7_per_file_failures_skipped (am ac : String → Option HtmlDoc)
    (rootPath : String) :
    processFilesRun am ac rootPath none =
      Except.error "ENOENT: no such file or directory" ∧
    (∀ es : List FsEntry, processFilesRun am ac rootPath (some es) =
      Except.ok (scanList am ac rootPath es)) ∧
    (∀ (dirPath : String) (es : List FsEntry),
      (scanList am ac dirPath es).1 = (collectHtmlList dirPath es).filterMap
        (fun p => match am p, ac p with
          | some d1, some _ => some (auditMetadata p d1)
          | _, _ => none) ∧
      (scanList am ac dirPath es).2 = (collectHtmlList dirPath es).filterMap
        (fun p => match am p, ac p with
          | some _, some d2 => some (auditContent p d2)
          | _, _ => none)) :=
  ⟨rfl, fun _ => rfl, fun dirPath es => scanList_eq am ac dirPath es⟩

/-- C10: the metadata result array and the content result array always have
the same length — each file contributes one result to both arrays or (when
either of its audits fails) to neither. -/
theorem claim10_result_arrays_same_length (am ac : String → Option HtmlDoc)
    (dirPath : String) (es : List FsEntry) :
    (scanList am ac dirPath es).1.length = (scanList am ac dirPath es).2.length := by
  obtain ⟨h1, h2⟩ := scanList_eq am ac dirPath es
  rw [h1, h2]
  induction collectHtmlList dirPath es with
  | nil => rfl
  | cons p ps ih =>
    rw [List.filterMap_cons, List.filterMap_cons]
    cases am p with
    | none => exact ih
    | some d1 =>
      cases ac p with
      | none => exact ih
      | some d2 => simp [ih]

/-! ### C4: the image alt-text check counts attribute presence, not
non-emptiness -/

/-- A document with no head metadata and the given image alt attributes. -/
def docWithImgs (alts : List (Option String)) : HtmlDoc :=
  { title := "", metaDescription := none, viewport := none, charsetAttr := none,
    h1Count := 0, h1FirstText := "", h2Count := 0, h3Count := 0, h4Count := 0,
    canonicalCount := 0, canonicalHref := none, bodyText := "", imgAlts := alts,
    semanticTagCount := 0, anchorHrefs := [] }

unseal Rat.mul Rat.add Rat.inv Rat.sub in
/-- C4 counterexample: a document with 5 images, 3 with non-empty `alt` and
2 with an empty `alt` attribute.  Counting non-empty alts (as the claim
states) gives 3/5 = 60% and the half-weight bracket (score 10); the code
counts the `alt` *attribute* (cheerio `img[alt]`), reports "5/5 images
(100%)" and awards the full weight 20. -/
theorem claim4_counterexample :
    specNonEmptyAltCount (docWithImgs [some "a", some "b", some "c", some "", some ""]) = 3 ∧
    specImageAltScore (docWithImgs [some "a", some "b", some "c", some "", some ""]) = 10 ∧
    imageAltValueOf (docWithImgs [some "a", some "b", some "c", some "", some ""]) =
      "5/5 images (100%)" ∧
    imageAltScoreOf (docWithImgs [some "a", some "b", some "c", some "", some ""]) = 20 ∧
    ¬ imageAltScoreOf (docWithImgs [some "a", some "b", some "c", some "", some ""]) =
      specImageAltScore (docWithImgs [some "a", some "b", some "c", some "", some ""]) := by
  decide

unseal Rat.mul Rat.add Rat.inv Rat.sub in
/-- C4 amended: the check computes coverage as the percentage of images
carrying an `alt` attribute (an empty `alt` counts as covered), treats zero
images as 100% coverage, awards full weight at exactly 100%, 80% of the
weight at coverage of at least 80%, half weight at coverage of at least 50%,
and 0 below; a document with 5 images of which 3 carry an `alt` attribute
(and 2 carry none) reports "3/5 images (60%)" and scores the 50-80%
bracket. -/
theorem claim4_amended (d : HtmlDoc) :
    (d.imgAlts = [] → altTextPercentageOf d = 100 ∧ imageAltScoreOf d = 20) ∧
    (altTextPercentageOf d =
      if 0 < d.imgAlts.length then
        (imagesWithAltOf d : ℚ) / (d.imgAlts.length : ℚ) * 100
      else 100) ∧
    ((altTextPercentageOf d = 100 → imageAltScoreOf d = 20) ∧
     (80 ≤ altTextPercentageOf d → altTextPercentageOf d ≠ 100 → imageAltScoreOf d = 16) ∧
     (50 ≤ altTextPercentageOf d → altTextPercentageOf d < 80 → imageAltScoreOf d = 10) ∧
     (altTextPercentageOf d < 50 → imageAltScoreOf d = 0)) ∧
    (imageAltValueOf (docWithImgs [some "a", some "b", some "", none, none]) =
      "3/5 images (60%)" ∧
     imageAltScoreOf (docWithImgs [some "a", some "b", some "", none, none]) = 10) := by
  refine ⟨?_, rfl, ⟨?_, ?_, ?_, ?_⟩, by decide, by decide⟩
  · intro he
    have hp : altTextPercentageOf d = 100 := by
      unfold altTextPercentageOf
      rw [he]
      rfl
    refine ⟨hp, ?_⟩
    unfold imageAltScoreOf
    rw [if_pos hp]
    rfl
  · intro hp
    unfold imageAltScoreOf
    rw [if_pos hp]
    rfl
  · intro h80 h100
    unfold imageAltScoreOf
    rw [if_neg h100, if_pos h80,
      show contentWeights.imageAlt = (20 : ℤ) from rfl, jsRound_vals.2.2.2.2.1]
  · intro h50 h80
    unfold imageAltScoreOf
    rw [if_neg (by intro e; rw [e] at h80; norm_num at h80),
      if_neg (by intro e; linarith), if_pos h50,
      show contentWeights.imageAlt = (20 : ℤ) from rfl, jsRound_vals.2.2.2.2.2]
  · intro h50
    unfold imageAltScoreOf
    rw [if_neg (by intro e; rw [e] at h50; norm_num at h50),
      if_neg (by intro e; linarith), if_neg (by intro e; linarith)]

/-- C4 witness: the zero-image branch of the amended claim at a concrete
document. -/
theorem claim4_amended_witness :
    altTextPercentageOf (docWithImgs []) = 100 ∧ imageAltScoreOf (docWithImgs []) = 20 :=
  (claim4_amended (docWithImgs [])).1 rfl

/-! ### C8: the "latest" report file receives the report path string, not
the rendered document -/

/-- C8: on every run the final content of `seo-report/seo-report.html` is
the *path string* `seo-report/seo-report-<timestamp>.html` — the value
`generateHTMLReport` returns and `processDirectory` then writes as file
content and copies — and that path string is not the rendered HTML document
(which starts with the template opening), whatever the timestamps and the
rendered remainder are. -/
theorem claim8_latest_report_content (tsG tsP rest : String) :
    fsAfter (processDirectoryWrites tsG tsP rest) latestReportPath =
      some (reportPathOf tsG) ∧
    (∀ r : String, reportPathOf tsG ≠ reportHtmlIntro ++ r) := by
  constructor
  · unfold processDirectoryWrites generateHTMLReportEffect fsAfter
    simp
  · intro r h
    have h1 : (reportPathOf tsG).data.head? = some 's' := rfl
    rw [h] at h1
    have h2 : ((reportHtmlIntro ++ r)).data.head? = some (Char.ofNat 10) := rfl
    rw [h2] at h1
    exact absurd h1 (by decide)

/-! ### C9: the standalone readability score -/

/-- C9: for a text whose tag-stripped form has at least one sentence and at
least one word, `calculateReadability` is the simplified Flesch Reading Ease
`206.835 - 1.015 * (words / sentences) - 84.6 * (syllables / words)` —
with the per-word syllable count being the number of vowel-group clusters,
at least 1 per word — rounded and then clamped to `[0, 100]`; a text with
no words or no sentences scores 0. -/
theorem claim9_readability (text : String) :
    (sentencesOf (stripTags text) ≠ [] → wordsCA (stripTags text) ≠ [] →
      calculateReadability text =
        min 100 (max 0 (jsRound (206835 / 1000 -
          (1015 / 1000) * (((wordsCA (stripTags text)).length : ℚ) /
            ((sentencesOf (stripTags text)).length : ℚ)) -
          (846 / 10) * ((((wordsCA (stripTags text)).map syllablesOfWord).sum : ℚ) /
            ((wordsCA (stripTags text)).length : ℚ))))) ∧
      0 ≤ calculateReadability text ∧ calculateReadability text ≤ 100) ∧
    (sentencesOf (stripTags text) = [] ∨ wordsCA (stripTags text) = [] →
      calculateReadability text = 0) := by
  constructor
  · intro hs hw
    have hcond : ¬((sentencesOf (stripTags text)).length = 0 ∨
        (wordsCA (stripTags text)).length = 0) := by
      rw [List.length_eq_zero, List.length_eq_zero]
      rintro (h | h)
      · exact hs h
      · exact hw h
    have heq : calculateReadability text =
        min 100 (max 0 (jsRound (206835 / 1000 -
          (1015 / 1000) * (((wordsCA (stripTags text)).length : ℚ) /
            ((sentencesOf (stripTags text)).length : ℚ)) -
          (846 / 10) * ((((wordsCA (stripTags text)).map syllablesOfWord).sum : ℚ) /
            ((wordsCA (stripTags text)).length : ℚ))))) := by
      unfold calculateReadability
      rw [if_neg hcond]
    refine ⟨heq, ?_, ?_⟩
    · rw [heq]
      exact le_min (by norm_num) (le_max_left 0 _)
    · rw [heq]
      exact min_le_left _ _
  · intro h
    unfold calculateReadability
    rw [if_pos]
    rcases h with h | h
    · exact Or.inl (by rw [h]; rfl)
    · exact Or.inr (by rw [h]; rfl)

/-- C9 witness: instantiation at the concrete text "Hello world." (one
sentence, two words). -/
theorem claim9_readability_witness :
    calculateReadability "Hello world." =
      min 100 (max 0 (jsRound (206835 / 1000 -
        (1015 / 1000) * (((wordsCA (stripTags "Hello world.")).length : ℚ) /
          ((sentencesOf (stripTags "Hello world.")).length : ℚ)) -
        (846 / 10) * ((((wordsCA (stripTags "Hello world.")).map syllablesOfWord).sum : ℚ) /
          ((wordsCA (stripTags "Hello world.")).length : ℚ))))) ∧
    0 ≤ calculateReadability "Hello world." ∧ calculateReadability "Hello world." ≤ 100 :=
  (claim9_readability "Hello world.").1 (by decide) (by decide)

end SeoAudit
